import Mathlib

/-!
Verification development for `src/mrinversion/c_lib/include/array.h`, a
typed-allocation facility consisting of four C preprocessor definitions,
each expanding a call `malloc_<T>(m)` to `(T *)malloc(m * sizeof(T))` for
one of the element types `complex128`, `complex64`, `float`, `double`.

The platform allocator `malloc` is external to the repository; it is
modelled from the specification (a request of N bytes either returns a
pointer to a fresh block or a null failure indicator, initializes nothing,
and is the only global state touched).  The model is a bump allocator over
an abstract heap state; distinct live blocks occupy disjoint address
ranges, as the platform allocator's contract guarantees.

Machine arithmetic: the byte count `m * sizeof(T)` is computed in the
host's address-width (`size_t`) arithmetic, so it is reduced modulo
`2 ^ w` for a host address width of `w` bits; `w` is a parameter of the
model and `w = 64` is used for concrete instances.
-/

/-- Element kinds of the facility: the four numeric types the four
allocation entry points are instantiated at. -/
inductive ElementKind
  | real32
  | real64
  | complex64
  | complex128
  deriving DecidableEq

/-- Byte size of each element kind.  `float` and `double` are the
platform's 4- and 8-byte IEEE-754 types; the `complex64` and `complex128`
typedef sizes are modelled from the spec's data-model table (a pair of
`Real32`, resp. a pair of `Real64`), the typedefs themselves not being
under `src/`. -/
def size_of : ElementKind → Nat
  | ElementKind.real32 => 4
  | ElementKind.real64 => 8
  | ElementKind.complex64 => 8
  | ElementKind.complex128 => 16

/-- Modelled from the spec: the observable state of the process-wide
platform allocator.  `nextAddr` is the next free address of a bump
allocator, `capacity` the end of usable memory, `mem` the byte-addressed
memory contents, `blocks` the live blocks handed out so far as
(address, byte length) pairs, and `requests` counts the allocation
requests made so far. -/
structure Heap where
  nextAddr : Nat
  capacity : Nat
  mem : Nat → Nat
  blocks : List (Nat × Nat)
  requests : Nat

/-- A well-formed allocator state: the bump pointer is nonzero (so no
successful allocation ever returns the null address 0) and strictly below
capacity (some free memory remains). -/
def Heap.WF (h : Heap) : Prop :=
  0 < h.nextAddr ∧ h.nextAddr < h.capacity

/-- Writing one byte `v` at address `a` of the heap memory; used to state
the sentinel-write framing property. -/
def Heap.write (h : Heap) (a v : Nat) : Heap :=
  { h with mem := fun x => if x = a then v else h.mem x }

/-- Modelled from the spec: the platform `malloc` primitive, which is not
part of the repository.  Given a byte count and the allocator state, when
enough free memory remains it returns the next free address and records
the new live block; the bump of `bytes + 1` models the allocator's
per-block metadata, so distinct live blocks occupy disjoint, strictly
increasing address ranges, as the platform contract guarantees.
Otherwise it returns the null indicator `none`.  Either way exactly one
request is counted, and nothing is written to memory (`malloc`, unlike
`calloc`, initializes nothing). -/
def mallocModel (bytes : Nat) (h : Heap) : Option Nat × Heap :=
  if h.nextAddr + bytes < h.capacity then
    (some h.nextAddr,
      { h with
          nextAddr := h.nextAddr + bytes + 1
          blocks := (h.nextAddr, bytes) :: h.blocks
          requests := h.requests + 1 })
  else
    (none, { h with requests := h.requests + 1 })

/-- The byte count the facility hands to `malloc`: the C expression
`m * sizeof(T)` evaluated in `size_t` arithmetic on a host with a `w`-bit
address width, hence reduced modulo `2 ^ w`. -/
def requestedBytes (w count : Nat) (k : ElementKind) : Nat :=
  (count * size_of k) % 2 ^ w

/-- Embedding of `#define malloc_complex128(m) (complex128 *)malloc(m *
sizeof(complex128))` (array.h line 12); the pointer cast does not change
the address and is dropped. -/
def malloc_complex128 (w m : Nat) (h : Heap) : Option Nat × Heap :=
  mallocModel (requestedBytes w m ElementKind.complex128) h

/-- Embedding of `#define malloc_complex64(m) (complex64 *)malloc(m *
sizeof(complex64))` (array.h line 13). -/
def malloc_complex64 (w m : Nat) (h : Heap) : Option Nat × Heap :=
  mallocModel (requestedBytes w m ElementKind.complex64) h

/-- Embedding of `#define malloc_float(m) (float *)malloc(m *
sizeof(float))` (array.h line 14). -/
def malloc_float (w m : Nat) (h : Heap) : Option Nat × Heap :=
  mallocModel (requestedBytes w m ElementKind.real32) h

/-- Embedding of `#define malloc_double(m) (double *)malloc(m *
sizeof(double))` (array.h line 15). -/
def malloc_double (w m : Nat) (h : Heap) : Option Nat × Heap :=
  mallocModel (requestedBytes w m ElementKind.real64) h

/-- Modelled from the spec: the generic `allocate(count, kind)` operation
of spec section 4.1, which computes `bytes = count * size_of(kind)` on the
host's `w`-bit address arithmetic and requests `bytes` of raw memory from
the platform allocator. -/
def allocate (w count : Nat) (k : ElementKind) (h : Heap) : Option Nat × Heap :=
  mallocModel (requestedBytes w count k) h

/-- Tokens of a C integer expression over `+` and `*`; used to state how
the parameter `m` is substituted textually, without parentheses, into the
body `m * sizeof(type)`. -/
inductive Tok
  | num (n : Nat)
  | plus
  | star
  deriving DecidableEq

/-- Textual expansion of `malloc_<kind>(arg)`: the argument's tokens are
spliced unparenthesized in front of `* sizeof(kind)`. -/
def expandArg (k : ElementKind) (arg : List Tok) : List Tok :=
  arg ++ [Tok.star, Tok.num (size_of k)]

/-- Parse a multiplicative term under C precedence (`*` binds tighter
than `+`).  Values are computed in `Nat`, where the grouping of `*` does
not change the value, so the term is folded to the right. -/
def parseTerm : List Tok → Option (Nat × List Tok)
  | Tok.num n :: Tok.star :: rest =>
      match parseTerm rest with
      | some (v, r) => some (n * v, r)
      | none => none
  | Tok.num n :: rest => some (n, rest)
  | _ => none

/-- Parse a sum of multiplicative terms; the fuel parameter bounds the
recursion depth and is instantiated with the token count. -/
def parseSum : Nat → List Tok → Option (Nat × List Tok)
  | 0, _ => none
  | fuel + 1, ts =>
      match parseTerm ts with
      | some (v, Tok.plus :: rest) =>
          match parseSum fuel rest with
          | some (v2, r) => some (v + v2, r)
          | none => none
      | some (v, rest) => some (v, rest)
      | none => none

/-- Value of a token list as a complete C expression under C precedence,
when it parses. -/
def evalTokens (ts : List Tok) : Option Nat :=
  match parseSum (ts.length + 1) ts with
  | some (v, []) => some v
  | _ => none

/-- A concrete well-formed allocator state used in witnesses. -/
def h0 : Heap :=
  ⟨1, 100, fun _ => 0, [], 0⟩

/-- A concrete exhausted allocator state (no capacity at all) used to
witness the failure path. -/
def hTiny : Heap :=
  ⟨1, 0, fun _ => 0, [], 0⟩

/-- Helper: the shape of a successful platform request: the returned
address is the old bump pointer, it fits with its block below capacity,
the bump pointer moves past the block, the block is recorded with its
requested length, and memory is untouched. -/
theorem mallocModel_success_shape (bytes : Nat) (h : Heap) (p : Nat)
    (hp : (mallocModel bytes h).1 = some p) :
    p = h.nextAddr ∧
    h.nextAddr + bytes < h.capacity ∧
    (mallocModel bytes h).2.nextAddr = h.nextAddr + bytes + 1 ∧
    (mallocModel bytes h).2.blocks = (h.nextAddr, bytes) :: h.blocks ∧
    (mallocModel bytes h).2.mem = h.mem := by
  by_cases hc : h.nextAddr + bytes < h.capacity
  · have e : mallocModel bytes h =
        (some h.nextAddr,
          { h with
              nextAddr := h.nextAddr + bytes + 1
              blocks := (h.nextAddr, bytes) :: h.blocks
              requests := h.requests + 1 }) := by
      unfold mallocModel
      rw [if_pos hc]
    rw [e] at hp ⊢
    exact ⟨(Option.some.inj hp).symm, hc, rfl, rfl, rfl⟩
  · have e : (mallocModel bytes h).1 = none := by
      simp only [mallocModel, if_neg hc]
    rw [e] at hp
    exact Option.noConfusion hp

/-- Helper: a failing platform request returns the null indicator and
leaves everything but the request counter unchanged. -/
theorem mallocModel_failure_shape (bytes : Nat) (h : Heap)
    (hc : ¬ h.nextAddr + bytes < h.capacity) :
    (mallocModel bytes h).1 = none := by
  simp only [mallocModel, if_neg hc]

/-- C6: the element sizes satisfy `size_of(Complex64) = 2 ×
size_of(Real32)` and `size_of(Complex128) = 2 × size_of(Real64)`, the
four sizes being 4, 8, 8 and 16 bytes. -/
theorem size_of_relations :
    size_of ElementKind.complex64 = 2 * size_of ElementKind.real32 ∧
    size_of ElementKind.complex128 = 2 * size_of ElementKind.real64 ∧
    size_of ElementKind.real32 = 4 ∧
    size_of ElementKind.real64 = 8 ∧
    size_of ElementKind.complex64 = 8 ∧
    size_of ElementKind.complex128 = 16 := by
  decide

/-- C8: the four allocation entry points differ only in the
`size_of(kind)` constant used: each one equals the generic
`allocate(count, kind)` at its kind, for every address width, count and
allocator state. -/
theorem entry_points_refine_allocate (w m : Nat) (h : Heap) :
    malloc_complex128 w m h = allocate w m ElementKind.complex128 h ∧
    malloc_complex64 w m h = allocate w m ElementKind.complex64 h ∧
    malloc_float w m h = allocate w m ElementKind.real32 h ∧
    malloc_double w m h = allocate w m ElementKind.real64 h :=
  ⟨rfl, rfl, rfl, rfl⟩

/-- C7: allocation initializes nothing: for every count, kind and
allocator state the memory contents after the call are exactly the
contents before it (the facility uses the non-zeroing primitive), so a
freshly allocated element holds whatever value that memory already had,
and in particular is not guaranteed to be zero. -/
theorem allocate_preserves_mem (w count : Nat) (k : ElementKind) (h : Heap) :
    (allocate w count k h).2.mem = h.mem := by
  unfold allocate mallocModel
  split
  · rfl
  · rfl

/-- C9: each call issues exactly one request to the process-wide
platform allocator and touches no other global state: the request
counter increases by exactly one whether the call succeeds or fails,
while the memory contents and the capacity are unchanged; the facility
itself is a pure function of its arguments and keeps no state of its
own, hence retains no reference to the returned buffer. -/
theorem allocate_one_request_frame (w count : Nat) (k : ElementKind) (h : Heap) :
    (allocate w count k h).2.requests = h.requests + 1 ∧
    (allocate w count k h).2.mem = h.mem ∧
    (allocate w count k h).2.capacity = h.capacity := by
  unfold allocate mallocModel
  split
  · exact ⟨rfl, rfl, rfl⟩
  · exact ⟨rfl, rfl, rfl⟩

/-- C5: the parameter `m` is substituted unparenthesized into
`m * sizeof(type)`: expanding the call on the compound argument `a + b`
yields an expression that evaluates under C precedence to
`a + b * size_of(k)` — not `(a + b) * size_of(k)`, from which it already
differs at `a = b = 1` for every kind — while a single primary-expression
argument `n` does yield `n * size_of(k)`. -/
theorem expansion_unparenthesized_arg (k : ElementKind) (a b n : Nat) :
    evalTokens (expandArg k [Tok.num a, Tok.plus, Tok.num b])
      = some (a + b * size_of k) ∧
    evalTokens (expandArg k [Tok.num n]) = some (n * size_of k) ∧
    1 + 1 * size_of k ≠ (1 + 1) * size_of k := by
  refine ⟨rfl, rfl, ?_⟩
  cases k <;> decide

/-- Helper: reading any address other than the one written is
unaffected by the write. -/
theorem write_mem_ne (h : Heap) (a v x : Nat) (hx : x ≠ a) :
    (h.write a v).mem x = h.mem x := by
  simp only [Heap.write, if_neg hx]

/-- C1 (amended): for every kind `K`, count, and allocator state, when
`count * size_of K` does not overflow the host's `w`-bit size
arithmetic, a successful `allocate(count, K)` yields a buffer whose
recorded byte length equals `count * size_of K`. -/
theorem allocate_success_length (w count : Nat) (k : ElementKind) (h : Heap)
    (p : Nat)
    (hov : count * size_of k < 2 ^ w)
    (hs : (allocate w count k h).1 = some p) :
    (allocate w count k h).2.blocks = (p, count * size_of k) :: h.blocks := by
  have hb : requestedBytes w count k = count * size_of k := Nat.mod_eq_of_lt hov
  obtain ⟨hp, -, -, hblocks, -⟩ :=
    mallocModel_success_shape (requestedBytes w count k) h p hs
  show (mallocModel (requestedBytes w count k) h).2.blocks
      = (p, count * size_of k) :: h.blocks
  rw [hblocks, hb, hp]

/-- Witness for the amended C1 at `w = 64`, `count = 3`, `K = Real64`
on a concrete allocator state: the recorded buffer is 24 bytes long. -/
theorem allocate_success_length_witness :
    (allocate 64 3 ElementKind.real64 h0).2.blocks
      = (1, 3 * size_of ElementKind.real64) :: h0.blocks :=
  allocate_success_length 64 3 ElementKind.real64 h0 1 (by decide) rfl

/-- Counterexample to C1 as stated: on a 64-bit host,
`allocate(2 ^ 60, Complex128)` silently wraps the byte count to `0`,
succeeds, and yields a buffer recorded with byte length `0`, which is
not `2 ^ 60 * size_of Complex128`. -/
theorem allocate_success_length_cex :
    (allocate 64 (2 ^ 60) ElementKind.complex128 h0).1 = some 1 ∧
    (allocate 64 (2 ^ 60) ElementKind.complex128 h0).2.blocks = [(1, 0)] ∧
    (0 : Nat) ≠ 2 ^ 60 * size_of ElementKind.complex128 :=
  ⟨rfl, rfl, by decide⟩

/-- C2: the size computation is not guarded against overflow: whenever
`count * size_of K` reaches `2 ^ w`, the byte count handed to the
allocator is the product silently reduced modulo `2 ^ w`, which is
strictly smaller than the true product, and the request is still issued
(exactly one allocator request) — nothing detects or rejects it. -/
theorem allocate_overflow_wraps (w count : Nat) (k : ElementKind) (h : Heap)
    (hov : 2 ^ w ≤ count * size_of k) :
    requestedBytes w count k = (count * size_of k) % 2 ^ w ∧
    requestedBytes w count k < count * size_of k ∧
    (allocate w count k h).2.requests = h.requests + 1 := by
  refine ⟨rfl, ?_, ?_⟩
  · exact lt_of_lt_of_le (Nat.mod_lt _ (pow_pos (by norm_num) w)) hov
  · unfold allocate mallocModel
    split
    · rfl
    · rfl

/-- Witness for C2 at `w = 4`, `count = 4`, `K = Real32`: the product
16 wraps to 0 on a 4-bit width yet the request is still issued. -/
theorem allocate_overflow_wraps_witness :
    requestedBytes 4 4 ElementKind.real32
      = (4 * size_of ElementKind.real32) % 2 ^ 4 ∧
    requestedBytes 4 4 ElementKind.real32 < 4 * size_of ElementKind.real32 ∧
    (allocate 4 4 ElementKind.real32 h0).2.requests = h0.requests + 1 :=
  allocate_overflow_wraps 4 4 ElementKind.real32 h0 (by decide)

/-- C3: a zero-count request succeeds on every well-formed allocator
state (returning the valid, nonzero next-free address), and a
zero-count request can only fail when every request on that state
fails — never solely because the requested size is zero. -/
theorem allocate_zero_succeeds (w : Nat) (k : ElementKind) (h : Heap) :
    (h.WF → (allocate w 0 k h).1 = some h.nextAddr) ∧
    ((allocate w 0 k h).1 = none →
      ∀ (count : Nat) (k' : ElementKind), (allocate w count k' h).1 = none) := by
  have hb : requestedBytes w 0 k = 0 := by
    simp [requestedBytes]
  constructor
  · intro hwf
    show (mallocModel (requestedBytes w 0 k) h).1 = some h.nextAddr
    rw [hb]
    have hc : h.nextAddr + 0 < h.capacity := by simpa using hwf.2
    simp only [mallocModel, if_pos hc]
  · intro hfail count k'
    have hfail' : (mallocModel (requestedBytes w 0 k) h).1 = none := hfail
    have hnc : ¬ h.nextAddr + 0 < h.capacity := by
      intro hc0
      have hsucc : (mallocModel (requestedBytes w 0 k) h).1 = some h.nextAddr := by
        rw [hb]
        simp only [mallocModel, if_pos hc0]
      rw [hsucc] at hfail'
      exact Option.noConfusion hfail'
    show (mallocModel (requestedBytes w count k') h).1 = none
    apply mallocModel_failure_shape
    intro hc
    exact hnc (lt_of_le_of_lt (Nat.add_le_add_left (Nat.zero_le _) _) hc)

/-- Witness for C3 at `w = 64`, `K = Complex64` on a concrete
well-formed allocator state: the zero-count request succeeds. -/
theorem allocate_zero_succeeds_witness :
    (allocate 64 0 ElementKind.complex64 h0).1 = some h0.nextAddr :=
  (allocate_zero_succeeds 64 ElementKind.complex64 h0).1 ⟨by decide, by decide⟩

/-- C4: when the platform allocator cannot satisfy the request, the
call returns the null indicator as its result value; whether it
succeeds or fails it issues exactly one request (no retry) and, being a
total function, neither throws nor aborts; and a non-null result arises
exactly when the allocator could satisfy the request, the returned
address being the allocator's (nonzero, on well-formed states) bump
pointer — so success and failure are unambiguously distinguished by the
null sentinel. -/
theorem allocate_failure_null (w count : Nat) (k : ElementKind) (h : Heap) :
    (¬ h.nextAddr + requestedBytes w count k < h.capacity →
      (allocate w count k h).1 = none) ∧
    (allocate w count k h).2.requests = h.requests + 1 ∧
    (∀ p, (allocate w count k h).1 = some p →
      h.nextAddr + requestedBytes w count k < h.capacity ∧
        p = h.nextAddr ∧ (h.WF → 0 < p)) := by
  refine ⟨?_, ?_, ?_⟩
  · intro hc
    exact mallocModel_failure_shape _ _ hc
  · unfold allocate mallocModel
    split
    · rfl
    · rfl
  · intro p hp
    obtain ⟨hpe, hc, -, -, -⟩ :=
      mallocModel_success_shape (requestedBytes w count k) h p hp
    exact ⟨hc, hpe, fun hwf => hpe.symm ▸ hwf.1⟩

/-- Witness for C4 on a concrete exhausted allocator state: the
one-element request fails with the null indicator. -/
theorem allocate_failure_null_witness :
    (allocate 64 1 ElementKind.real32 hTiny).1 = none :=
  (allocate_failure_null 64 1 ElementKind.real32 hTiny).1 (by decide)

/-- C10: two consecutive successful allocations with the same
arguments return distinct addresses, and the two buffers do not alias:
writing a sentinel byte at any in-bounds offset of either buffer leaves
every in-bounds byte of the other buffer unchanged. -/
theorem allocate_consecutive_distinct (w count : Nat) (k : ElementKind)
    (h : Heap) (p1 p2 i j v : Nat)
    (hpos : 0 < count)
    (h1 : (allocate w count k h).1 = some p1)
    (h2 : (allocate w count k (allocate w count k h).2).1 = some p2)
    (hi : i < requestedBytes w count k) (hj : j < requestedBytes w count k) :
    p1 ≠ p2 ∧
    ((allocate w count k (allocate w count k h).2).2.write (p1 + i) v).mem (p2 + j)
      = (allocate w count k (allocate w count k h).2).2.mem (p2 + j) ∧
    ((allocate w count k (allocate w count k h).2).2.write (p2 + j) v).mem (p1 + i)
      = (allocate w count k (allocate w count k h).2).2.mem (p1 + i) := by
  obtain ⟨hp1, -, hn1, -, -⟩ :=
    mallocModel_success_shape (requestedBytes w count k) h p1 h1
  obtain ⟨hp2, -, -, -, -⟩ :=
    mallocModel_success_shape (requestedBytes w count k)
      (allocate w count k h).2 p2 h2
  have hA : (allocate w count k h).2.nextAddr
      = h.nextAddr + requestedBytes w count k + 1 := hn1
  have key : p1 + i < p2 := by omega
  exact ⟨by omega, write_mem_ne _ _ _ _ (by omega), write_mem_ne _ _ _ _ (by omega)⟩

/-- Witness for C10 at `w = 64`, `count = 1`, `K = Real32` on a
concrete allocator state: the two calls return addresses 1 and 6, and a
sentinel write into either buffer leaves the other's byte unchanged. -/
theorem allocate_consecutive_distinct_witness :
    (1 : Nat) ≠ 6 ∧
    ((allocate 64 1 ElementKind.real32 (allocate 64 1 ElementKind.real32 h0).2).2.write (1 + 0) 7).mem (6 + 0)
      = (allocate 64 1 ElementKind.real32 (allocate 64 1 ElementKind.real32 h0).2).2.mem (6 + 0) ∧
    ((allocate 64 1 ElementKind.real32 (allocate 64 1 ElementKind.real32 h0).2).2.write (6 + 0) 7).mem (1 + 0)
      = (allocate 64 1 ElementKind.real32 (allocate 64 1 ElementKind.real32 h0).2).2.mem (1 + 0) :=
  allocate_consecutive_distinct 64 1 ElementKind.real32 h0 1 6 0 0 7
    (by decide) rfl rfl (by decide) (by decide)
